import Mathlib

/-!
Verification development for the tinyusdz-rs repository: a shallow embedding
of the mesh model with fan triangulation (src/mesh.rs), the mesh extractor
(src/mesh.rs), the stage traversal iterator (src/stage.rs), the temp-file
staging helper (src/stage.rs), and the GLB container writer
(examples/usd_to_glb.rs), together with theorems settling the frozen claims.

Machine-integer conventions: Rust i32 values are modeled as Int, usize
values as Nat, and bytes as Nat (always < 256 by construction).  32-bit
float values are modeled by their IEEE-754 bit patterns (a Nat); the code
under verification never computes on coordinate values, it only clones and
serializes them, so the bit pattern is all that matters.  64-bit floats in
transform matrices are likewise modeled by their bit patterns.
-/

namespace TinyUsdz

/-- Bit pattern of an f32 value (a natural number below 2^32). -/
abbrev F32 := Nat

/-- Bit pattern of an f64 value (a natural number below 2^64). -/
abbrev F64 := Nat

/-- A byte value (a natural number below 256). -/
abbrev Byte := Nat

/-- Rust cast `c as usize` on an i32 value: two's-complement widening.
For nonnegative c this is the numeric value; for negative c (always in
the i32 range in real programs) it is 2^64 + c. -/
def i32AsUsize (c : Int) : Nat :=
  if 0 ≤ c then c.toNat else (2 ^ 64 + c).toNat

/-- Rust cast `idx as u32` on an i32 value: two's-complement truncation. -/
def i32AsU32 (c : Int) : Nat :=
  (c % (2 ^ 32 : Int)).toNat

/-- Little-endian 4-byte encoding, as written by `u32::to_le_bytes`.
Encoding x and x mod 2^32 produce the same bytes, so this also models
`(n as u32).to_le_bytes()` for any n. -/
def u32ToLeBytes (x : Nat) : List Byte :=
  [x % 256, x / 256 % 256, x / 256 / 256 % 256, x / 256 / 256 / 256 % 256]

/-- Decoding of a 4-byte little-endian field back to a number. -/
def leDecode4 : List Byte → Nat
  | [a, b, c, d] => a + 256 * (b + 256 * (c + 256 * d))
  | _ => 0

/-- The IEEE-754 bit pattern of 1.0f64, used by identity_matrix. -/
def f64One : F64 := 4607182418800017408

/-- The IEEE-754 bit pattern of 1.0f32, used in concrete test meshes. -/
def f32One : F32 := 1065353216

/-- A 4x4 matrix of f64 values ([[f64; 4]; 4] in the source). -/
abbrev Mat4 := List (List F64)

/-- Translation of identity_matrix (src/mesh.rs): the 4x4 identity. -/
def identity_matrix : Mat4 :=
  [[f64One, 0, 0, 0],
   [0, f64One, 0, 0],
   [0, 0, f64One, 0],
   [0, 0, 0, f64One]]

/-- A vertex position ([f32; 3] in the source). -/
abbrev Point3 := F32 × F32 × F32

/-- A texture coordinate ([f32; 2] in the source). -/
abbrev Point2 := F32 × F32

/-- Translation of struct Mesh (src/mesh.rs). -/
structure Mesh where
  name : String
  points : List Point3
  face_vertex_counts : List Int
  face_vertex_indices : List Int
  normals : Option (List Point3)
  uvs : Option (List Point2)
  local_transform : Mat4
  world_transform : Mat4
deriving DecidableEq

namespace Mesh

/-- Translation of Mesh::new (src/mesh.rs): the empty mesh with the given
name, identity transforms, and no normals or uvs. -/
def new (name : String) : Mesh :=
  { name := name
    points := []
    face_vertex_counts := []
    face_vertex_indices := []
    normals := none
    uvs := none
    local_transform := identity_matrix
    world_transform := identity_matrix }

end Mesh

/-- The inner fan loop of Mesh::triangulate: `for i in 1..(count as usize - 1)`
pushes the triangle (first, indices[offset + i], indices[offset + i + 1]).
The loop is unrolled by the remaining iteration count k, starting at
position i; out-of-range indexing (which panics in Rust) is modeled here
with getD 0, and separately by the checked variant below. -/
def fanTriangles (indices : List Int) (offset : Nat) (first : Int) :
    Nat → Nat → List Int
  | _, 0 => []
  | i, k + 1 =>
      first :: indices.getD (offset + i) 0 :: indices.getD (offset + i + 1) 0 ::
        fanTriangles indices offset first (i + 1) k

/-- The face loop of Mesh::triangulate over face_vertex_counts, carrying
index_offset.  A face with count < 3 only advances the offset; a face with
count ≥ 3 reads first = indices[offset] and emits its fan triangles. -/
def triangulateLoop (indices : List Int) : List Int → Nat → List Int
  | [], _ => []
  | c :: rest, offset =>
      if c < 3 then
        triangulateLoop indices rest (offset + i32AsUsize c)
      else
        let n := i32AsUsize c
        let first := indices.getD offset 0
        fanTriangles indices offset first 1 (n - 2) ++
          triangulateLoop indices rest (offset + n)

/-- Translation of Mesh::triangulate (src/mesh.rs).  A fresh mesh is built
from Mesh::new with points and both transforms copied from self; if
face_vertex_indices is empty the function returns early; otherwise the
face loop produces the new flat index list and face_vertex_counts is
rebuilt as vec![3; new_indices.len() / 3]. -/
def Mesh.triangulate (m : Mesh) : Mesh :=
  let result : Mesh :=
    { Mesh.new m.name with
        points := m.points
        local_transform := m.local_transform
        world_transform := m.world_transform }
  if m.face_vertex_indices.isEmpty then
    result
  else
    let new_indices := triangulateLoop m.face_vertex_indices m.face_vertex_counts 0
    { result with
        face_vertex_counts := List.replicate (new_indices.length / 3) 3
        face_vertex_indices := new_indices }

/-- Checked variant of the fan loop: every slice access that Rust performs
with panicking Vec indexing is performed with get?, so the result is none
exactly when some access is out of bounds. -/
def fanTrianglesChecked (indices : List Int) (offset : Nat) (first : Int) :
    Nat → Nat → Option (List Int)
  | _, 0 => some []
  | i, k + 1 => do
      let a ← indices[offset + i]?
      let b ← indices[offset + i + 1]?
      let rest ← fanTrianglesChecked indices offset first (i + 1) k
      pure (first :: a :: b :: rest)

/-- Checked variant of the face loop: the read of indices[index_offset] and
the loop-bound subtraction `count as usize - 1` are both guarded, modeling
the Rust panics (index out of bounds, usize underflow). -/
def triangulateLoopChecked (indices : List Int) : List Int → Nat → Option (List Int)
  | [], _ => some []
  | c :: rest, offset =>
      if c < 3 then
        triangulateLoopChecked indices rest (offset + i32AsUsize c)
      else
        let n := i32AsUsize c
        if n = 0 then none
        else do
          let first ← indices[offset]?
          let tri ← fanTrianglesChecked indices offset first 1 (n - 2)
          let restTri ← triangulateLoopChecked indices rest (offset + n)
          pure (tri ++ restTri)

/-- Checked variant of Mesh::triangulate: none models a Rust panic. -/
def Mesh.triangulateChecked (m : Mesh) : Option Mesh :=
  let result : Mesh :=
    { Mesh.new m.name with
        points := m.points
        local_transform := m.local_transform
        world_transform := m.world_transform }
  if m.face_vertex_indices.isEmpty then
    some result
  else do
    let new_indices ← triangulateLoopChecked m.face_vertex_indices m.face_vertex_counts 0
    pure { result with
             face_vertex_counts := List.replicate (new_indices.length / 3) 3
             face_vertex_indices := new_indices }

/-- Modelled from the spec: the faces of a mesh as slices of the flat index
list, each face taking `count as usize` entries starting at its offset.
Used to state fan triangulation the way the spec phrases it, per face. -/
def splitFaces (indices : List Int) : List Int → Nat → List (List Int)
  | [], _ => []
  | c :: rest, offset =>
      (indices.drop offset).take (i32AsUsize c) ::
        splitFaces indices rest (offset + i32AsUsize c)

/-- Modelled from the spec: fan triangulation of one face in the spec's own
words — a face with n < 3 vertices contributes nothing, and a face with
n ≥ 3 vertices contributes, for i in 1 .. n-2, the triangle
(first, v[i], v[i+1]) in original index order. -/
def specFanFace (face : List Int) : List Int :=
  if face.length < 3 then []
  else
    (List.range (face.length - 2)).flatMap fun j =>
      [face.getD 0 0, face.getD (j + 1) 0, face.getD (j + 2) 0]

/-- Model of a scene-graph node handle as the mesh extractor sees it: the
local name, the type label and the property-name list (src/prim.rs exposes
exactly these to src/mesh.rs; property values are not decodable). -/
structure Prim where
  name : String
  type_name : String
  property_names : List String
deriving DecidableEq

/-- Translation of Prim::is_mesh (src/prim.rs). -/
def Prim.is_mesh (p : Prim) : Bool :=
  p.type_name == "Mesh"

namespace MeshExtractor

/-- Translation of MeshExtractor::extract_mesh (src/mesh.rs): a fresh mesh
from Mesh::new(prim.name()); the property names are read into a discarded
local and no geometry field is filled in. -/
def extract_mesh (p : Prim) : Mesh :=
  let mesh := Mesh.new p.name
  let _property_names := p.property_names
  mesh

end MeshExtractor

/-- Model of a node pointer collected during traversal: node identity. -/
abbrev PrimPtr := Nat

/-- Translation of struct StageTraversal (src/stage.rs): the snapshot of
collected prims plus the iterator cursor. -/
structure StageTraversal where
  prims : List PrimPtr
  index : Nat
deriving DecidableEq

namespace StageTraversal

/-- Translation of StageTraversal::new (src/stage.rs).  The scene graph and
the C traversal engine are external to the crate; modelled from the spec,
the engine presents the nodes of a stage in one fixed pre-order sequence
ext (the order the underlying graph presents children).  new first clears
the global TRAVERSAL_PRIMS buffer, then the engine invokes the callback
once per node in ext, each call pushing onto the global buffer, and
finally the buffer is copied into the per-iterator prims vector.  The
global buffer state is passed and returned explicitly. -/
def new (ext : List PrimPtr) (_globalBuf : List PrimPtr) :
    StageTraversal × List PrimPtr :=
  let cleared : List PrimPtr := []
  let collected := cleared ++ ext
  ({ prims := collected, index := 0 }, collected)

/-- Translation of Iterator::next for StageTraversal (src/stage.rs). -/
def next (t : StageTraversal) : Option PrimPtr × StageTraversal :=
  if t.index < t.prims.length then
    (some (t.prims.getD t.index 0), { t with index := t.index + 1 })
  else
    (none, t)

/-- Repeated calls to next until it yields none, collecting the items; the
fuel argument bounds the number of calls and is unobservable once it is at
least the number of remaining items. -/
def run (t : StageTraversal) : Nat → List PrimPtr
  | 0 => []
  | fuel + 1 =>
      match t.next with
      | (none, _) => []
      | (some p, t2) => p :: t2.run fuel

/-- Driving the iterator to exhaustion from its current cursor. -/
def runAll (t : StageTraversal) : List PrimPtr :=
  t.run (t.prims.length - t.index)

end StageTraversal

/-- File-system operations performed by the temp-file staging path of
Stage::from_usda / from_usdc / from_usdz (src/stage.rs). -/
inductive FsOp where
  | createFile (path : String)
  | writeAll (path : String) (data : List Byte)
  | syncAll (path : String)
  | removeFile (path : String)
  | loadUsdFromFile (path : String)
deriving DecidableEq

/-- Whether an operation removes a file. -/
def FsOp.isRemove : FsOp → Bool
  | .removeFile _ => true
  | _ => false

/-- Outcome oracle for the fallible steps of the staging path: which of the
file create, write, sync and engine load succeed on this run. -/
structure FsEnv where
  createOk : Bool
  writeOk : Bool
  syncOk : Bool
  loadOk : Bool
deriving DecidableEq

/-- Translation of the temp path built by tempfile_for_data (src/stage.rs):
temp_dir().join(format!("tinyusdz_rs_{}{}", std::process::id(), extension)). -/
def tempPath (tempDir : String) (pid : Nat) (extension : String) : String :=
  tempDir ++ "/tinyusdz_rs_" ++ toString pid ++ extension

/-- Translation of tempfile_for_data (src/stage.rs) as a trace of
file-system operations plus the returned TempFile path (none on error).
File::create, write_all and sync_all each propagate failure with the ?
operator; no exit path removes the file, and the TempFile struct it
returns has no Drop implementation, so dropping it performs no
file-system operation either. -/
def tempfile_for_data (env : FsEnv) (tempDir : String) (pid : Nat)
    (data : List Byte) (extension : String) : List FsOp × Option String :=
  let path := tempPath tempDir pid extension
  if !env.createOk then ([.createFile path], none)
  else if !env.writeOk then ([.createFile path, .writeAll path data], none)
  else if !env.syncOk then
    ([.createFile path, .writeAll path data, .syncAll path], none)
  else
    ([.createFile path, .writeAll path data, .syncAll path], some path)

namespace Stage

/-- Translation of Stage::from_usda (src/stage.rs): stage the bytes through
tempfile_for_data with extension ".usda", then Stage::open on the temp
path (whose file-system effect is the engine load).  The trace lists the
file-system operations of the call; the Bool is overall success.  The
returned TempFile is dropped at the end of the call, which performs no
operation (no Drop impl). -/
def from_usda (env : FsEnv) (tempDir : String) (pid : Nat)
    (data : List Byte) : List FsOp × Bool :=
  match tempfile_for_data env tempDir pid data ".usda" with
  | (ops, none) => (ops, false)
  | (ops, some p) => (ops ++ [.loadUsdFromFile p], env.loadOk)

/-- Translation of Stage::from_usdc (src/stage.rs). -/
def from_usdc (env : FsEnv) (tempDir : String) (pid : Nat)
    (data : List Byte) : List FsOp × Bool :=
  match tempfile_for_data env tempDir pid data ".usdc" with
  | (ops, none) => (ops, false)
  | (ops, some p) => (ops ++ [.loadUsdFromFile p], env.loadOk)

/-- Translation of Stage::from_usdz (src/stage.rs). -/
def from_usdz (env : FsEnv) (tempDir : String) (pid : Nat)
    (data : List Byte) : List FsOp × Bool :=
  match tempfile_for_data env tempDir pid data ".usdz" with
  | (ops, none) => (ops, false)
  | (ops, some p) => (ops ++ [.loadUsdFromFile p], env.loadOk)

end Stage

/-- Number of padding bytes to the next 4-byte boundary, the expression
(4 - (len % 4)) % 4 the source computes for both chunks. -/
def padAmount (n : Nat) : Nat := (4 - n % 4) % 4

/-- The while loop `while buf.len() % 4 != 0 { buf.push(0) }` in closed
form: append zero bytes up to the next 4-byte boundary. -/
def pad4 (b : List Byte) : List Byte :=
  b ++ List.replicate (padAmount b.length) 0

/-- Bytes of one vertex position: three f32 coordinates, each written with
to_le_bytes in order. -/
def pointBytes (p : Point3) : List Byte :=
  u32ToLeBytes p.1 ++ u32ToLeBytes p.2.1 ++ u32ToLeBytes p.2.2

/-- Translation of the per-mesh buffer assembly in build_gltf
(examples/usd_to_glb.rs, lines 72-111): triangulate, skip the mesh when
points or indices are empty, append the point coordinates, pad to a
4-byte boundary, append the indices as u32 little-endian, pad again. -/
def buildGltfMeshStep (buffer_data : List Byte) (mesh : Mesh) : List Byte :=
  let triangulated := mesh.triangulate
  if triangulated.points.isEmpty || triangulated.face_vertex_indices.isEmpty then
    buffer_data
  else
    let buffer_data := buffer_data ++ triangulated.points.flatMap pointBytes
    let buffer_data := pad4 buffer_data
    let buffer_data := buffer_data ++
      triangulated.face_vertex_indices.flatMap fun idx => u32ToLeBytes (i32AsU32 idx)
    pad4 buffer_data

/-- The binary buffer assembled by build_gltf while it computes the
buffer-view byte offsets and the registered buffer byte length. -/
def buildGltfBufferData (meshes : List Mesh) : List Byte :=
  meshes.foldl buildGltfMeshStep []

/-- Translation of the buffer rebuild in write_glb
(examples/usd_to_glb.rs, lines 270-300), translated from that second loop
independently of buildGltfMeshStep. -/
def writeGlbMeshStep (buffer_data : List Byte) (mesh : Mesh) : List Byte :=
  let triangulated := mesh.triangulate
  if triangulated.points.isEmpty || triangulated.face_vertex_indices.isEmpty then
    buffer_data
  else
    let buffer_data := buffer_data ++ triangulated.points.flatMap pointBytes
    let buffer_data := pad4 buffer_data
    let buffer_data := buffer_data ++
      triangulated.face_vertex_indices.flatMap fun idx => u32ToLeBytes (i32AsU32 idx)
    pad4 buffer_data

/-- The binary buffer bytes write_glb writes into the BIN chunk. -/
def writeGlbBufferData (meshes : List Mesh) : List Byte :=
  meshes.foldl writeGlbMeshStep []

/-- The four magic bytes b"glTF". -/
def glbMagic : List Byte := [0x67, 0x6C, 0x54, 0x46]

/-- The chunk type tag 0x4E4F534A ("JSON"). -/
def jsonChunkType : Nat := 0x4E4F534A

/-- The chunk type tag 0x004E4942 ("BIN" and a zero byte). -/
def binChunkType : Nat := 0x004E4942

/-- Declared length of the JSON chunk: the JSON text length plus padding. -/
def json_chunk_length (jsonBytes : List Byte) : Nat :=
  jsonBytes.length + padAmount jsonBytes.length

/-- Declared length of the BIN chunk: the buffer length plus padding. -/
def bin_chunk_length (meshes : List Mesh) : Nat :=
  (writeGlbBufferData meshes).length + padAmount (writeGlbBufferData meshes).length

/-- Total file length as computed by write_glb:
12 + 8 + padded JSON length + 8 + padded binary length. -/
def glb_total_length (jsonBytes : List Byte) (meshes : List Mesh) : Nat :=
  12 + (8 + json_chunk_length jsonBytes) + (8 + bin_chunk_length meshes)

/-- Translation of the file-writing part of write_glb
(examples/usd_to_glb.rs, lines 302-343).  The JSON text comes from the
external gltf_json serializer, so it is taken here as an arbitrary byte
list; every assembled byte after that point is determined by the code.
The sequence of write_all calls is modeled as one concatenation. -/
def writeGlbBytes (jsonBytes : List Byte) (meshes : List Mesh) : List Byte :=
  let buffer_data := writeGlbBufferData meshes
  let json_padding := padAmount jsonBytes.length
  let bin_padding := padAmount buffer_data.length
  glbMagic ++
    u32ToLeBytes 2 ++
    u32ToLeBytes (glb_total_length jsonBytes meshes) ++
    u32ToLeBytes (json_chunk_length jsonBytes) ++
    u32ToLeBytes jsonChunkType ++
    jsonBytes ++
    List.replicate json_padding 0x20 ++
    u32ToLeBytes (bin_chunk_length meshes) ++
    u32ToLeBytes binChunkType ++
    buffer_data ++
    List.replicate bin_padding 0

/-- The quad mesh of the round-trip test in the spec: four points forming
a unit square (f32 bit patterns, so 1.0 is f32One), one face of four
vertices, indices 0 1 2 3. -/
def quadMesh : Mesh :=
  { name := "quad"
    points := [(0, 0, 0), (f32One, 0, 0), (f32One, f32One, 0), (0, f32One, 0)]
    face_vertex_counts := [4]
    face_vertex_indices := [0, 1, 2, 3]
    normals := none
    uvs := none
    local_transform := identity_matrix
    world_transform := identity_matrix }

/-- A single-triangle mesh carrying vertex normals, used as the concrete
input showing that triangulate does not carry normals over. -/
def meshWithNormals : Mesh :=
  { name := "tri"
    points := [(0, 0, 0), (f32One, 0, 0), (0, f32One, 0)]
    face_vertex_counts := [3]
    face_vertex_indices := [0, 1, 2]
    normals := some [(0, 0, f32One), (0, 0, f32One), (0, 0, f32One)]
    uvs := none
    local_transform := identity_matrix
    world_transform := identity_matrix }

/-- A single-triangle mesh without normals or uvs: an already-triangulated
mesh in the sense of the idempotence claim. -/
def triMesh : Mesh :=
  { meshWithNormals with name := "tri3", normals := none }

/-- A concrete mesh-typed node handle. -/
def meshPrim : Prim :=
  { name := "m", type_name := "Mesh", property_names := ["points"] }

/-! ## Lemmas about the fan loop -/

theorem i32AsUsize_of_nonneg {c : Int} (h : 0 ≤ c) : i32AsUsize c = c.toNat := by
  simp [i32AsUsize, h]

theorem fanTriangles_length (ind : List Int) (off : Nat) (first : Int) :
    ∀ (k i : Nat), (fanTriangles ind off first i k).length = 3 * k := by
  intro k
  induction k with
  | zero => intro i; simp [fanTriangles]
  | succ k ih =>
      intro i
      rw [fanTriangles]
      simp only [List.length_cons, ih (i + 1)]
      omega

theorem fanTriangles_eq_range (ind : List Int) (off : Nat) (first : Int) :
    ∀ (k i : Nat), fanTriangles ind off first i k =
      (List.range k).flatMap fun j =>
        [first, ind.getD (off + i + j) 0, ind.getD (off + i + j + 1) 0] := by
  intro k
  induction k with
  | zero => intro i; simp [fanTriangles]
  | succ k ih =>
      intro i
      rw [fanTriangles, List.range_succ_eq_map, ih (i + 1)]
      simp only [List.flatMap_cons, List.flatMap_map, Nat.add_zero, List.cons_append,
        List.nil_append, Function.comp_def, Nat.succ_eq_add_one]
      have h : ∀ j : Nat, off + (i + 1) + j = off + i + (j + 1) := fun j => by omega
      simp only [h]

theorem getD_slice (ind : List Int) (off n j : Nat) (hj : j < n)
    (hb : off + j < ind.length) :
    ((ind.drop off).take n).getD j 0 = ind.getD (off + j) 0 := by
  simp [List.getD, List.getElem?_take, hj, List.getElem?_drop]

theorem specFanFace_slice (ind : List Int) (off n : Nat) (h3 : 3 ≤ n)
    (hb : off + n ≤ ind.length) :
    specFanFace ((ind.drop off).take n) =
      (List.range (n - 2)).flatMap fun j =>
        [ind.getD off 0, ind.getD (off + (j + 1)) 0, ind.getD (off + (j + 2)) 0] := by
  have hlen : ((ind.drop off).take n).length = n := by
    simp only [List.length_take, List.length_drop]
    omega
  rw [specFanFace, hlen, if_neg (by omega)]
  rw [List.flatMap_def, List.flatMap_def]
  congr 1
  refine List.map_congr_left ?_
  intro j hj
  rw [List.mem_range] at hj
  rw [getD_slice ind off n 0 (by omega) (by omega),
      getD_slice ind off n (j + 1) (by omega) (by omega),
      getD_slice ind off n (j + 2) (by omega) (by omega), Nat.add_zero]

theorem fan_eq_specFanFace (ind : List Int) (off n : Nat) (h3 : 3 ≤ n)
    (hb : off + n ≤ ind.length) :
    fanTriangles ind off (ind.getD off 0) 1 (n - 2) =
      specFanFace ((ind.drop off).take n) := by
  rw [specFanFace_slice ind off n h3 hb, fanTriangles_eq_range]
  have h1 : ∀ j : Nat, off + 1 + j = off + (j + 1) := fun j => by omega
  have h2 : ∀ j : Nat, off + (j + 1) + 1 = off + (j + 2) := fun j => by omega
  simp only [h1, h2]

/-! ## Lemmas about the face loop -/

theorem triangulateLoop_eq_spec (ind : List Int) :
    ∀ (counts : List Int) (off : Nat),
      (∀ c ∈ counts, 0 ≤ c) →
      off + (counts.map i32AsUsize).sum ≤ ind.length →
      triangulateLoop ind counts off = (splitFaces ind counts off).flatMap specFanFace := by
  intro counts
  induction counts with
  | nil => intro off _ _; simp [triangulateLoop, splitFaces]
  | cons c rest ih =>
      intro off hpos hb
      have hc0 : 0 ≤ c := hpos c (List.mem_cons_self c rest)
      have hrest : ∀ x ∈ rest, 0 ≤ x := fun x hx => hpos x (List.mem_cons_of_mem c hx)
      simp only [List.map_cons, List.sum_cons] at hb
      simp only [triangulateLoop, splitFaces, List.flatMap_cons]
      by_cases hc : c < 3
      · rw [if_pos hc]
        have hshort : specFanFace ((ind.drop off).take (i32AsUsize c)) = [] := by
          rw [specFanFace, if_pos]
          have hle : ((ind.drop off).take (i32AsUsize c)).length ≤ i32AsUsize c := by
            simp [List.length_take]
          have : i32AsUsize c < 3 := by
            rw [i32AsUsize_of_nonneg hc0]; omega
          omega
        rw [hshort, List.nil_append, ih (off + i32AsUsize c) hrest (by omega)]
      · rw [if_neg hc]
        have h3 : 3 ≤ i32AsUsize c := by
          rw [i32AsUsize_of_nonneg hc0]; omega
        have hbound : off + i32AsUsize c ≤ ind.length := by omega
        rw [ih (off + i32AsUsize c) hrest (by omega),
          fan_eq_specFanFace ind off (i32AsUsize c) h3 hbound]

theorem triangulateLoop_length (ind : List Int) :
    ∀ (counts : List Int) (off : Nat),
      (triangulateLoop ind counts off).length
        = 3 * ((counts.map fun c => if c < 3 then 0 else i32AsUsize c - 2).sum) := by
  intro counts
  induction counts with
  | nil => intro off; simp [triangulateLoop]
  | cons c rest ih =>
      intro off
      simp only [triangulateLoop, List.map_cons, List.sum_cons]
      by_cases hc : c < 3
      · rw [if_pos hc, if_pos hc, ih]
        omega
      · rw [if_neg hc, if_neg hc]
        rw [List.length_append, fanTriangles_length, ih]
        ring

theorem triangulateLoop_all_three (ind : List Int) :
    ∀ (counts : List Int) (off : Nat),
      (∀ c ∈ counts, c = 3) → off + 3 * counts.length = ind.length →
      triangulateLoop ind counts off = ind.drop off := by
  intro counts
  induction counts with
  | nil =>
      intro off _ hlen
      simp only [List.length_nil, Nat.mul_zero, Nat.add_zero] at hlen
      simp only [triangulateLoop]
      exact (List.drop_eq_nil_of_le (le_of_eq hlen.symm)).symm
  | cons c rest ih =>
      intro off hall hlen
      have hc : c = 3 := hall c (List.mem_cons_self c rest)
      subst hc
      simp only [List.length_cons] at hlen
      simp only [triangulateLoop]
      rw [if_neg (by norm_num)]
      have husize : i32AsUsize 3 = 3 := by decide
      rw [husize]
      have h0 : off < ind.length := by omega
      rw [ih (off + 3) (fun x hx => hall x (List.mem_cons_of_mem 3 hx)) (by omega)]
      simp only [fanTriangles, List.cons_append, List.nil_append]
      rw [List.getD_eq_getElem ind 0 h0,
          List.getD_eq_getElem ind 0 (show off + 1 < ind.length from by omega),
          List.getD_eq_getElem ind 0 (show off + 1 + 1 < ind.length from by omega),
          List.drop_eq_getElem_cons h0,
          List.drop_eq_getElem_cons (show off + 1 < ind.length from by omega),
          List.drop_eq_getElem_cons (show off + 1 + 1 < ind.length from by omega)]

/-! ## Field-level facts about Mesh.triangulate -/

theorem triangulate_name (m : Mesh) : (m.triangulate).name = m.name := by
  simp only [Mesh.triangulate]
  split <;> rfl

theorem triangulate_points (m : Mesh) : (m.triangulate).points = m.points := by
  simp only [Mesh.triangulate]
  split <;> rfl

theorem triangulate_normals (m : Mesh) : (m.triangulate).normals = none := by
  simp only [Mesh.triangulate]
  split <;> rfl

theorem triangulate_uvs (m : Mesh) : (m.triangulate).uvs = none := by
  simp only [Mesh.triangulate]
  split <;> rfl

theorem triangulate_local_transform (m : Mesh) :
    (m.triangulate).local_transform = m.local_transform := by
  simp only [Mesh.triangulate]
  split <;> rfl

theorem triangulate_world_transform (m : Mesh) :
    (m.triangulate).world_transform = m.world_transform := by
  simp only [Mesh.triangulate]
  split <;> rfl

theorem triangulate_counts_replicate (m : Mesh) :
    (m.triangulate).face_vertex_counts
      = List.replicate ((m.triangulate).face_vertex_indices.length / 3) 3 := by
  simp only [Mesh.triangulate]
  split <;> simp [Mesh.new]

theorem triangulate_indices_length_dvd (m : Mesh) :
    3 ∣ (m.triangulate).face_vertex_indices.length := by
  simp only [Mesh.triangulate]
  split
  · simp [Mesh.new]
  · exact ⟨_, triangulateLoop_length _ _ _⟩

/-! ## Lemmas about the checked variants -/

theorem fanTrianglesChecked_eq (ind : List Int) (off : Nat) (first : Int) :
    ∀ (k i : Nat), (k = 0 ∨ off + i + k < ind.length) →
      fanTrianglesChecked ind off first i k = some (fanTriangles ind off first i k) := by
  intro k
  induction k with
  | zero => intro i _; rfl
  | succ k ih =>
      intro i h
      have hlt : off + i + (k + 1) < ind.length := by
        rcases h with h | h
        · omega
        · exact h
      rw [fanTrianglesChecked, fanTriangles]
      rw [List.getElem?_eq_getElem (show off + i < ind.length from by omega),
          List.getElem?_eq_getElem (show off + i + 1 < ind.length from by omega),
          ih (i + 1) (by omega)]
      simp only [Option.bind_eq_bind, Option.some_bind]
      rw [List.getD_eq_getElem ind 0 (show off + i < ind.length from by omega),
          List.getD_eq_getElem ind 0 (show off + i + 1 < ind.length from by omega)]
      rfl

theorem triangulateLoopChecked_eq (ind : List Int) :
    ∀ (counts : List Int) (off : Nat),
      (∀ c ∈ counts, 0 ≤ c) →
      off + (counts.map i32AsUsize).sum ≤ ind.length →
      triangulateLoopChecked ind counts off = some (triangulateLoop ind counts off) := by
  intro counts
  induction counts with
  | nil => intro off _ _; rfl
  | cons c rest ih =>
      intro off hpos hb
      have hc0 : 0 ≤ c := hpos c (List.mem_cons_self c rest)
      have hrest : ∀ x ∈ rest, 0 ≤ x := fun x hx => hpos x (List.mem_cons_of_mem c hx)
      simp only [List.map_cons, List.sum_cons] at hb
      simp only [triangulateLoopChecked, triangulateLoop]
      by_cases hc : c < 3
      · rw [if_pos hc, if_pos hc]
        exact ih (off + i32AsUsize c) hrest (by omega)
      · rw [if_neg hc, if_neg hc]
        have h3 : 3 ≤ i32AsUsize c := by
          rw [i32AsUsize_of_nonneg hc0]; omega
        rw [if_neg (by omega)]
        rw [List.getElem?_eq_getElem (show off < ind.length from by omega)]
        simp only [Option.bind_eq_bind, Option.some_bind]
        rw [fanTrianglesChecked_eq ind off _ (i32AsUsize c - 2) 1 (by omega),
            ih (off + i32AsUsize c) hrest (by omega)]
        simp only [Option.bind_eq_bind, Option.some_bind]
        rw [List.getD_eq_getElem ind 0 (show off < ind.length from by omega)]
        rfl

/-! ## Lemmas about the traversal iterator -/

theorem run_eq_drop :
    ∀ (f : Nat) (t : StageTraversal), t.prims.length ≤ t.index + f →
      t.run f = t.prims.drop t.index := by
  intro f
  induction f with
  | zero =>
      intro t h
      rw [StageTraversal.run]
      exact (List.drop_eq_nil_of_le (by omega)).symm
  | succ f ih =>
      intro t h
      rw [StageTraversal.run]
      simp only [StageTraversal.next]
      by_cases hi : t.index < t.prims.length
      · simp only [if_pos hi]
        rw [ih { t with index := t.index + 1 } (by simpa using by omega)]
        rw [List.getD_eq_getElem t.prims 0 hi]
        exact (List.drop_eq_getElem_cons hi).symm
      · simp only [if_neg hi]
        exact (List.drop_eq_nil_of_le (by omega)).symm

/-! ## Byte-layout helper lemmas -/

theorem u32ToLeBytes_length (x : Nat) : (u32ToLeBytes x).length = 4 := rfl

theorem leDecode4_u32ToLeBytes (x : Nat) : leDecode4 (u32ToLeBytes x) = x % 2 ^ 32 := by
  simp only [u32ToLeBytes, leDecode4]
  rw [show (2 ^ 32 : Nat) = 256 * 16777216 from by norm_num, Nat.mod_mul,
      show (16777216 : Nat) = 256 * 65536 from by norm_num, Nat.mod_mul,
      show (65536 : Nat) = 256 * 256 from by norm_num, Nat.mod_mul]

theorem segment_drop (l r : List Byte) (p : Nat) (hl : l.length = p) :
    (l ++ r).drop p = r :=
  List.drop_left' hl

theorem segment_extract (l m r : List Byte) (p s : Nat) (hl : l.length = p)
    (hm : m.length = s) : ((l ++ (m ++ r)).drop p).take s = m := by
  rw [List.drop_left' hl, List.take_left' hm]

theorem triangulateLoop_all_small (ind : List Int) :
    ∀ (counts : List Int) (off : Nat), (∀ c ∈ counts, c < 3) →
      triangulateLoop ind counts off = [] := by
  intro counts
  induction counts with
  | nil => intro off _; rfl
  | cons c rest ih =>
      intro off hall
      simp only [triangulateLoop, if_pos (hall c (List.mem_cons_self c rest))]
      exact ih _ fun x hx => hall x (List.mem_cons_of_mem c hx)

/-! ## Claim theorems -/

/-- C3: the binary buffer bytes written to the file by write_glb are
byte-for-byte identical to the binary buffer build_gltf assembled when
computing the JSON buffer-view byte offsets and the registered buffer
byte length; the source duplicates the assembly loop verbatim, so the two
independently translated functions agree on every mesh list. -/
theorem glb_buffer_consistent :
    ∀ meshes : List Mesh, buildGltfBufferData meshes = writeGlbBufferData meshes :=
  fun _ => rfl

/-- C4 (amended): triangulate preserves name, points and both transforms,
and rewrites face_vertex_counts and face_vertex_indices; however the
optional normals and uvs are not carried over: the output always has
normals = none and uvs = none. -/
theorem triangulate_frame_fields :
    ∀ m : Mesh,
      (m.triangulate).name = m.name
      ∧ (m.triangulate).points = m.points
      ∧ (m.triangulate).local_transform = m.local_transform
      ∧ (m.triangulate).world_transform = m.world_transform
      ∧ (m.triangulate).normals = none
      ∧ (m.triangulate).uvs = none :=
  fun m =>
    ⟨triangulate_name m, triangulate_points m, triangulate_local_transform m,
      triangulate_world_transform m, triangulate_normals m, triangulate_uvs m⟩

/-- C4 counterexample: on a concrete mesh carrying vertex normals, the
normals field of the triangulated mesh differs from the input (it is
reset to none), so the claim that every other field is unchanged fails. -/
theorem triangulate_fields_cex :
    decide ((meshWithNormals.triangulate).normals = meshWithNormals.normals) = false := by
  decide

/-- C5 (amended): triangulating a mesh whose faces all have exactly 3
vertices, whose flat index list has the matching length, and whose
normals and uvs are absent returns the mesh unchanged; and for every mesh
whatsoever, triangulate after triangulate equals triangulate (the second
application is a no-op on the output of the first). -/
theorem triangulate_idempotent :
    (∀ m : Mesh, (∀ c ∈ m.face_vertex_counts, c = 3) →
        m.face_vertex_indices.length = 3 * m.face_vertex_counts.length →
        m.normals = none → m.uvs = none → m.triangulate = m)
    ∧ ∀ m : Mesh, m.triangulate.triangulate = m.triangulate := by
  have part1 : ∀ m : Mesh, (∀ c ∈ m.face_vertex_counts, c = 3) →
      m.face_vertex_indices.length = 3 * m.face_vertex_counts.length →
      m.normals = none → m.uvs = none → m.triangulate = m := by
    intro m h3 hlen hn hu
    obtain ⟨nm, pts, cnts, inds, nrm, uv, lt, wt⟩ := m
    simp only at h3 hlen hn hu
    subst hn hu
    by_cases he : inds.isEmpty
    · have hie : inds = [] := List.isEmpty_iff.mp he
      subst hie
      have hcnts : cnts = [] := by
        have := hlen
        simp only [List.length_nil] at this
        exact List.eq_nil_of_length_eq_zero (by omega)
      subst hcnts
      simp [Mesh.triangulate, Mesh.new]
    · simp only [Mesh.triangulate, if_neg he]
      have hloop : triangulateLoop inds cnts 0 = inds := by
        rw [triangulateLoop_all_three inds cnts 0 h3 (by omega)]
        exact List.drop_zero inds
      simp only [hloop]
      have hk : inds.length / 3 = cnts.length := by omega
      have hrep : List.replicate (inds.length / 3) (3 : Int) = cnts := by
        rw [hk]
        exact (List.eq_replicate_iff.mpr ⟨rfl, h3⟩).symm
      simp [Mesh.new, hrep]
  refine ⟨part1, fun m => ?_⟩
  apply part1
  · rw [triangulate_counts_replicate m]
    intro c hc
    exact (List.eq_of_mem_replicate hc)
  · rw [triangulate_counts_replicate m, List.length_replicate]
    exact (Nat.div_mul_cancel (triangulate_indices_length_dvd m)).symm.trans
      (by rw [Nat.mul_comm])
  · exact triangulate_normals m
  · exact triangulate_uvs m

/-- C5 witness: the concrete already-triangulated mesh triMesh is a fixed
point of triangulate. -/
theorem triangulate_idempotent_witness : triMesh.triangulate = triMesh :=
  triangulate_idempotent.1 triMesh (by decide) (by decide) (by decide) (by decide)

/-- C5 counterexample: a mesh whose single face has exactly 3 vertices but
which carries normals is not returned unchanged by triangulate, so
idempotence as stated over all meshes with all-3 faces fails. -/
theorem triangulate_idempotent_cex :
    decide (meshWithNormals.triangulate = meshWithNormals) = false := by
  decide

/-- C6 (amended): for every input mesh, the number of output faces times 3
equals the length of the output index list; equivalently the sum of the
output face_vertex_counts equals the length of the output index list
(the spec text multiplies the sum by 3, which overcounts by a factor of
three on any mesh with output triangles). -/
theorem triangulate_counts_total_length :
    ∀ m : Mesh,
      (m.triangulate).face_vertex_counts.length * 3
          = (m.triangulate).face_vertex_indices.length
      ∧ (m.triangulate).face_vertex_counts.sum
          = ((m.triangulate).face_vertex_indices.length : Int) := by
  intro m
  have hd := triangulate_indices_length_dvd m
  have hc := triangulate_counts_replicate m
  constructor
  · rw [hc, List.length_replicate]
    exact Nat.div_mul_cancel hd
  · rw [hc, List.sum_replicate, nsmul_eq_mul]
    have h1 : (m.triangulate).face_vertex_indices.length / 3 * 3
        = (m.triangulate).face_vertex_indices.length := Nat.div_mul_cancel hd
    exact_mod_cast h1

/-- C6 counterexample: on the quad mesh, sum(output_face_vertex_counts)
times 3 is 18 while the output index list has length 6, so the claimed
identity fails. -/
theorem counts_sum_cex :
    decide ((quadMesh.triangulate).face_vertex_counts.sum * 3
        = ((quadMesh.triangulate).face_vertex_indices.length : Int)) = false := by
  decide

/-- C7: Stage::from_usda, from_usdc and from_usdz never remove the staged
temporary file on any outcome: the trace of file-system operations of any
run, successful or failed at any step, contains no remove operation (the
TempFile helper has no Drop implementation and no code path deletes the
path). -/
theorem from_usd_never_removes_tempfile :
    ∀ (env : FsEnv) (tempDir : String) (pid : Nat) (data : List Byte),
      ((Stage.from_usda env tempDir pid data).1.filter FsOp.isRemove) = []
      ∧ ((Stage.from_usdc env tempDir pid data).1.filter FsOp.isRemove) = []
      ∧ ((Stage.from_usdz env tempDir pid data).1.filter FsOp.isRemove) = [] := by
  intro env tempDir pid data
  obtain ⟨c, w, s, l⟩ := env
  cases c <;> cases w <;> cases s <;>
    simp [Stage.from_usda, Stage.from_usdc, Stage.from_usdz, tempfile_for_data,
      FsOp.isRemove]

/-- C8: traverse is restartable and deterministic: for any node sequence
the external engine presents for the stage and any prior contents of the
global collection buffer, one traversal yields exactly that sequence, a
second traversal started after the first yields it again, and the two
runs have equal elements in equal order and equal length; each call
re-walks the graph from a fresh cursor. -/
theorem traverse_restartable :
    ∀ (ext g0 : List PrimPtr),
      ((StageTraversal.new ext g0).1).runAll = ext
      ∧ ((StageTraversal.new ext ((StageTraversal.new ext g0).2)).1).runAll = ext
      ∧ ((StageTraversal.new ext g0).1).runAll
          = ((StageTraversal.new ext ((StageTraversal.new ext g0).2)).1).runAll
      ∧ ((StageTraversal.new ext g0).1).runAll.length
          = ((StageTraversal.new ext ((StageTraversal.new ext g0).2)).1).runAll.length := by
  intro ext g0
  have h : ∀ g : List PrimPtr, ((StageTraversal.new ext g).1).runAll = ext := by
    intro g
    simp only [StageTraversal.new, StageTraversal.runAll, List.nil_append]
    rw [run_eq_drop (ext.length - 0) ⟨ext, 0⟩
      (by show ext.length ≤ 0 + (ext.length - 0); omega)]
    exact List.drop_zero ext
  exact ⟨h g0, h _, by rw [h g0, h _], by rw [h g0, h _]⟩

/-- C9 (amended): the mesh extractor returns exactly Mesh.new(prim.name)
for every node: plain empty geometry vectors and absent normals and uvs,
with no availability marker of any kind, so the result is
indistinguishable from a genuine zero-vertex mesh. -/
theorem extract_mesh_returns_empty :
    ∀ p : Prim, MeshExtractor.extract_mesh p = Mesh.new p.name :=
  fun _ => rfl

/-- C9 counterexample: for a concrete mesh-typed node, the extracted mesh
is equal, as a value, to the genuine zero-vertex mesh of the same name,
so a caller cannot distinguish unavailable geometry from empty geometry. -/
theorem extract_mesh_indistinguishable_cex :
    meshPrim.is_mesh = true
    ∧ MeshExtractor.extract_mesh meshPrim = Mesh.new "m" := by
  constructor
  · decide
  · rfl

/-- C10: on every mesh whose face_vertex_counts are all nonnegative and
whose total (cast to usize) does not exceed the index list length, the
checked triangulation — in which every Vec access and the loop-bound
subtraction are guarded — succeeds and agrees with the total translation,
so the Rust code never panics there; moreover whenever
face_vertex_indices is empty the result has empty face_vertex_counts and
face_vertex_indices whatever the input counts are. -/
theorem triangulate_total :
    ∀ m : Mesh,
      ((∀ c ∈ m.face_vertex_counts, 0 ≤ c) →
        (m.face_vertex_counts.map i32AsUsize).sum ≤ m.face_vertex_indices.length →
        m.triangulateChecked = some m.triangulate)
      ∧ (m.face_vertex_indices = [] →
          (m.triangulate).face_vertex_counts = []
          ∧ (m.triangulate).face_vertex_indices = []) := by
  intro m
  constructor
  · intro hpos hb
    simp only [Mesh.triangulateChecked, Mesh.triangulate]
    by_cases he : m.face_vertex_indices.isEmpty
    · simp only [he, if_pos]
    · simp only [he]
      rw [triangulateLoopChecked_eq m.face_vertex_indices m.face_vertex_counts 0 hpos
        (by omega)]
      simp
  · intro hie
    have he : m.face_vertex_indices.isEmpty := by simp [hie]
    simp only [Mesh.triangulate, if_pos he]
    exact ⟨rfl, rfl⟩

/-- C10 witness: the checked triangulation succeeds on the quad mesh. -/
theorem triangulate_total_witness :
    quadMesh.triangulateChecked = some quadMesh.triangulate :=
  (triangulate_total quadMesh).1 (by decide) (by decide)

/-- C1: triangulate performs fan triangulation: on every mesh with
nonnegative face_vertex_counts whose total does not exceed the index
list length, the output index list is exactly the concatenation, over the
faces (the count-sized slices of the flat index list), of the spec-side
fan of each face — a face of n ≥ 3 vertices contributes the n-2 triangles
(first, v[i], v[i+1]) for i in 1..n-2 in original index order, and a face
of n < 3 vertices contributes nothing — and the output face_vertex_counts
is a 3 for each emitted triangle; in particular the unit quad mesh
triangulates to counts [3, 3] and indices [0, 1, 2, 0, 2, 3]. -/
theorem fan_triangulation_correct :
    (∀ m : Mesh,
      (∀ c ∈ m.face_vertex_counts, 0 ≤ c) →
      (m.face_vertex_counts.map i32AsUsize).sum ≤ m.face_vertex_indices.length →
      (m.triangulate).face_vertex_indices
          = (splitFaces m.face_vertex_indices m.face_vertex_counts 0).flatMap specFanFace
        ∧ (m.triangulate).face_vertex_counts
          = List.replicate
              ((m.face_vertex_counts.map fun c =>
                  if c < 3 then 0 else i32AsUsize c - 2).sum) 3)
    ∧ (quadMesh.triangulate).face_vertex_counts = [3, 3]
    ∧ (quadMesh.triangulate).face_vertex_indices = [0, 1, 2, 0, 2, 3] := by
  refine ⟨?_, by decide, by decide⟩
  intro m hpos hb
  have hloop := triangulateLoop_eq_spec m.face_vertex_indices m.face_vertex_counts 0
    hpos (by omega)
  by_cases he : m.face_vertex_indices.isEmpty
  · have hie : m.face_vertex_indices = [] := List.isEmpty_iff.mp he
    have hsmall : ∀ c ∈ m.face_vertex_counts, c < 3 := by
      intro c hc
      by_contra hcge
      have husize : 3 ≤ i32AsUsize c := by
        rw [i32AsUsize_of_nonneg (hpos c hc)]; omega
      have hle : i32AsUsize c ≤ (m.face_vertex_counts.map i32AsUsize).sum :=
        List.single_le_sum (fun _ _ => Nat.zero_le _) _ (List.mem_map_of_mem _ hc)
      rw [hie] at hb
      simp only [List.length_nil] at hb
      omega
    have h1 : (m.triangulate).face_vertex_indices = [] := by
      simp only [Mesh.triangulate, if_pos he, Mesh.new]
    have h2 : (m.triangulate).face_vertex_counts = [] := by
      simp only [Mesh.triangulate, if_pos he, Mesh.new]
    constructor
    · rw [h1, ← hloop, triangulateLoop_all_small _ _ _ hsmall]
    · rw [h2]
      have hT : (m.face_vertex_counts.map fun c =>
          if c < 3 then 0 else i32AsUsize c - 2).sum = 0 := by
        apply List.sum_eq_zero
        intro x hx
        rw [List.mem_map] at hx
        obtain ⟨c, hc, rfl⟩ := hx
        rw [if_pos (hsmall c hc)]
      rw [hT, List.replicate_zero]
  · constructor
    · simp only [Mesh.triangulate, if_neg he]
      exact hloop
    · simp only [Mesh.triangulate, if_neg he]
      show List.replicate
          ((triangulateLoop m.face_vertex_indices m.face_vertex_counts 0).length / 3) 3 = _
      rw [triangulateLoop_length, Nat.mul_div_cancel_left _ (by norm_num)]

/-- C1 witness: the theorem applied to the quad mesh, whose counts are
nonnegative and whose count total equals its index list length. -/
theorem fan_triangulation_correct_witness :
    (quadMesh.triangulate).face_vertex_indices
      = (splitFaces quadMesh.face_vertex_indices quadMesh.face_vertex_counts 0).flatMap
          specFanFace :=
  (fan_triangulation_correct.1 quadMesh (by decide) (by decide)).1

/-- C2: the GLB stream write_glb emits has the exact claimed layout, for
every mesh list and every JSON payload the serializer produces (total
length below 2^32, as on any real file): a 12-byte header whose second
field decodes to version 2 and whose third field decodes to
12 + 8 + padded-JSON-length + 8 + padded-binary-length, which is also the
actual byte length of the whole stream; a JSON chunk whose declared
length equals its actual padded byte length, is a multiple of 4, and
whose body is the JSON text padded with ASCII space (0x20) bytes; and a
binary chunk whose declared length equals its actual padded byte length,
is a multiple of 4, and whose body is the buffer padded with zero
bytes. -/
theorem glb_layout (jsonBytes : List Byte) (meshes : List Mesh)
    (h : glb_total_length jsonBytes meshes < 2 ^ 32) :
    (writeGlbBytes jsonBytes meshes).length = glb_total_length jsonBytes meshes
    ∧ leDecode4 (((writeGlbBytes jsonBytes meshes).drop 4).take 4) = 2
    ∧ leDecode4 (((writeGlbBytes jsonBytes meshes).drop 8).take 4)
        = glb_total_length jsonBytes meshes
    ∧ leDecode4 (((writeGlbBytes jsonBytes meshes).drop 12).take 4)
        = json_chunk_length jsonBytes
    ∧ json_chunk_length jsonBytes % 4 = 0
    ∧ ((writeGlbBytes jsonBytes meshes).drop 16).take 4 = u32ToLeBytes jsonChunkType
    ∧ ((writeGlbBytes jsonBytes meshes).drop 20).take (json_chunk_length jsonBytes)
        = jsonBytes ++ List.replicate (padAmount jsonBytes.length) 0x20
    ∧ leDecode4
        (((writeGlbBytes jsonBytes meshes).drop
            (20 + json_chunk_length jsonBytes)).take 4)
        = bin_chunk_length meshes
    ∧ bin_chunk_length meshes % 4 = 0
    ∧ ((writeGlbBytes jsonBytes meshes).drop
          (24 + json_chunk_length jsonBytes)).take 4 = u32ToLeBytes binChunkType
    ∧ (writeGlbBytes jsonBytes meshes).drop (28 + json_chunk_length jsonBytes)
        = writeGlbBufferData meshes
            ++ List.replicate (padAmount (writeGlbBufferData meshes).length) 0 := by
  have htot : glb_total_length jsonBytes meshes
      = 12 + (8 + json_chunk_length jsonBytes) + (8 + bin_chunk_length meshes) := rfl
  have hjcl : json_chunk_length jsonBytes
      = jsonBytes.length + padAmount jsonBytes.length := rfl
  have hbcl : bin_chunk_length meshes
      = (writeGlbBufferData meshes).length
        + padAmount (writeGlbBufferData meshes).length := rfl
  have hjp : padAmount jsonBytes.length = (4 - jsonBytes.length % 4) % 4 := rfl
  have hbp : padAmount (writeGlbBufferData meshes).length
      = (4 - (writeGlbBufferData meshes).length % 4) % 4 := rfl
  have hw : writeGlbBytes jsonBytes meshes
      = glbMagic ++ (u32ToLeBytes 2 ++ (u32ToLeBytes (glb_total_length jsonBytes meshes)
        ++ (u32ToLeBytes (json_chunk_length jsonBytes) ++ (u32ToLeBytes jsonChunkType
        ++ (jsonBytes ++ (List.replicate (padAmount jsonBytes.length) 0x20
        ++ (u32ToLeBytes (bin_chunk_length meshes) ++ (u32ToLeBytes binChunkType
        ++ (writeGlbBufferData meshes
            ++ List.replicate (padAmount (writeGlbBufferData meshes).length) 0))))))))) := by
    simp [writeGlbBytes, List.append_assoc]
  have d4 : (writeGlbBytes jsonBytes meshes).drop 4
      = u32ToLeBytes 2 ++ (u32ToLeBytes (glb_total_length jsonBytes meshes)
        ++ (u32ToLeBytes (json_chunk_length jsonBytes) ++ (u32ToLeBytes jsonChunkType
        ++ (jsonBytes ++ (List.replicate (padAmount jsonBytes.length) 0x20
        ++ (u32ToLeBytes (bin_chunk_length meshes) ++ (u32ToLeBytes binChunkType
        ++ (writeGlbBufferData meshes
            ++ List.replicate (padAmount (writeGlbBufferData meshes).length) 0)))))))) := by
    rw [hw]; exact segment_drop _ _ _ rfl
  have d8 : (writeGlbBytes jsonBytes meshes).drop 8
      = u32ToLeBytes (glb_total_length jsonBytes meshes)
        ++ (u32ToLeBytes (json_chunk_length jsonBytes) ++ (u32ToLeBytes jsonChunkType
        ++ (jsonBytes ++ (List.replicate (padAmount jsonBytes.length) 0x20
        ++ (u32ToLeBytes (bin_chunk_length meshes) ++ (u32ToLeBytes binChunkType
        ++ (writeGlbBufferData meshes
            ++ List.replicate (padAmount (writeGlbBufferData meshes).length) 0))))))) := by
    rw [show (8 : Nat) = 4 + 4 from rfl, ← List.drop_drop, d4]
    exact segment_drop _ _ _ rfl
  have d12 : (writeGlbBytes jsonBytes meshes).drop 12
      = u32ToLeBytes (json_chunk_length jsonBytes) ++ (u32ToLeBytes jsonChunkType
        ++ (jsonBytes ++ (List.replicate (padAmount jsonBytes.length) 0x20
        ++ (u32ToLeBytes (bin_chunk_length meshes) ++ (u32ToLeBytes binChunkType
        ++ (writeGlbBufferData meshes
            ++ List.replicate (padAmount (writeGlbBufferData meshes).length) 0)))))) := by
    rw [show (12 : Nat) = 8 + 4 from rfl, ← List.drop_drop, d8]
    exact segment_drop _ _ _ rfl
  have d16 : (writeGlbBytes jsonBytes meshes).drop 16
      = u32ToLeBytes jsonChunkType
        ++ (jsonBytes ++ (List.replicate (padAmount jsonBytes.length) 0x20
        ++ (u32ToLeBytes (bin_chunk_length meshes) ++ (u32ToLeBytes binChunkType
        ++ (writeGlbBufferData meshes
            ++ List.replicate (padAmount (writeGlbBufferData meshes).length) 0))))) := by
    rw [show (16 : Nat) = 12 + 4 from rfl, ← List.drop_drop, d12]
    exact segment_drop _ _ _ rfl
  have d20 : (writeGlbBytes jsonBytes meshes).drop 20
      = jsonBytes ++ (List.replicate (padAmount jsonBytes.length) 0x20
        ++ (u32ToLeBytes (bin_chunk_length meshes) ++ (u32ToLeBytes binChunkType
        ++ (writeGlbBufferData meshes
            ++ List.replicate (padAmount (writeGlbBufferData meshes).length) 0)))) := by
    rw [show (20 : Nat) = 16 + 4 from rfl, ← List.drop_drop, d16]
    exact segment_drop _ _ _ rfl
  have djson : (writeGlbBytes jsonBytes meshes).drop (20 + json_chunk_length jsonBytes)
      = u32ToLeBytes (bin_chunk_length meshes) ++ (u32ToLeBytes binChunkType
        ++ (writeGlbBufferData meshes
            ++ List.replicate (padAmount (writeGlbBufferData meshes).length) 0)) := by
    rw [← List.drop_drop, d20, hjcl, ← List.drop_drop, segment_drop _ _ _ rfl,
        segment_drop _ _ _ (List.length_replicate _ _)]
  have dbin24 : (writeGlbBytes jsonBytes meshes).drop (24 + json_chunk_length jsonBytes)
      = u32ToLeBytes binChunkType
        ++ (writeGlbBufferData meshes
            ++ List.replicate (padAmount (writeGlbBufferData meshes).length) 0) := by
    rw [show 24 + json_chunk_length jsonBytes = 20 + json_chunk_length jsonBytes + 4
          from by omega,
        ← List.drop_drop, djson]
    exact segment_drop _ _ _ rfl
  have dbin28 : (writeGlbBytes jsonBytes meshes).drop (28 + json_chunk_length jsonBytes)
      = writeGlbBufferData meshes
          ++ List.replicate (padAmount (writeGlbBufferData meshes).length) 0 := by
    rw [show 28 + json_chunk_length jsonBytes = 24 + json_chunk_length jsonBytes + 4
          from by omega,
        ← List.drop_drop, dbin24]
    exact segment_drop _ _ _ rfl
  refine ⟨?_, ?_, ?_, ?_, by omega, ?_, ?_, ?_, by omega, ?_, dbin28⟩
  · rw [hw]
    simp only [List.length_append, List.length_replicate, u32ToLeBytes_length,
      glbMagic, List.length_cons, List.length_nil]
    omega
  · rw [d4, List.take_left' (u32ToLeBytes_length 2), leDecode4_u32ToLeBytes]
    exact Nat.mod_eq_of_lt (by norm_num)
  · rw [d8, List.take_left' (u32ToLeBytes_length _), leDecode4_u32ToLeBytes]
    exact Nat.mod_eq_of_lt h
  · rw [d12, List.take_left' (u32ToLeBytes_length _), leDecode4_u32ToLeBytes]
    exact Nat.mod_eq_of_lt (by omega)
  · rw [d16, List.take_left' (u32ToLeBytes_length _)]
  · rw [d20, hjcl, ← List.append_assoc,
      List.take_left' (by simp [List.length_append, List.length_replicate])]
  · rw [djson, List.take_left' (u32ToLeBytes_length _), leDecode4_u32ToLeBytes]
    exact Nat.mod_eq_of_lt (by omega)
  · rw [dbin24, List.take_left' (u32ToLeBytes_length _)]

/-- C2 witness: the theorem applied to the empty JSON payload and the
empty mesh list, whose total length 28 is below 2^32. -/
theorem glb_layout_witness :
    (writeGlbBytes [] []).length = glb_total_length [] [] :=
  (glb_layout [] [] (by decide)).1

end TinyUsdz
